import Mathlib

/-!
Verification of the GDGFlashCard repository against its specification.

The repository contains a Drizzle ORM schema (`decks`, `cards`), a database
module (`src/db/index.ts`), and documentation.  The specified scheduling
engine, session planner and outcome recorder exist only on the roadmap, so
those components are modelled from the specification text; the schema and
database module are embedded from the source.
-/

namespace FlashCard

/-! ## Database schema (from src/unnamed/part_005, Drizzle `pgTable` defs)

Nullable SQL columns are `Option`; `.notNull()` columns are enforced by the
insert operations, and we prove they are non-null in every reachable state.
Timestamps are naturals (seconds since epoch); `serial` ids come from a
per-table counter. -/

/-- Row of the `decks` table: id serial PK, user_id text NOT NULL (Clerk user
id, no foreign key), title text NOT NULL, description text (nullable),
created_at / updated_at timestamps NOT NULL DEFAULT now(). -/
structure DeckRow where
  id : Nat
  userId : String
  title : String
  description : Option String
  createdAt : Option Nat
  updatedAt : Option Nat
  deriving Repr, DecidableEq

/-- Row of the `cards` table: id serial PK, deck_id integer NOT NULL
REFERENCES decks(id) ON DELETE CASCADE, front / back text NOT NULL,
created_at / updated_at timestamps NOT NULL DEFAULT now(). -/
structure CardRow where
  id : Nat
  deckId : Option Nat
  front : String
  back : String
  createdAt : Option Nat
  updatedAt : Option Nat
  deriving Repr, DecidableEq

/-- The database state: contents of both tables plus the serial counters. -/
structure Db where
  decks : List DeckRow
  cards : List CardRow
  nextDeckId : Nat
  nextCardId : Nat
  deriving Repr, DecidableEq

/-- The freshly migrated database: both tables empty, serials at 1. -/
def Db.empty : Db := ⟨[], [], 1, 1⟩

/-- INSERT INTO decks.  `user_id` is an unconstrained text column: the insert
succeeds for every string, with no check against any user table (the schema
has none).  Omitted timestamps default to the insertion time (`defaultNow`). -/
def insertDeck (db : Db) (userId title : String) (description : Option String)
    (createdAt? updatedAt? : Option Nat) (now : Nat) : Db :=
  { db with
    decks := db.decks ++
      [⟨db.nextDeckId, userId, title, description,
        some (createdAt?.getD now), some (updatedAt?.getD now)⟩]
    nextDeckId := db.nextDeckId + 1 }

/-- INSERT INTO cards.  The `deck_id` foreign key is enforced: the insert
fails (`none`) when the referenced deck does not exist.  Omitted timestamps
default to the insertion time. -/
def insertCard (db : Db) (deckId : Nat) (front back : String)
    (createdAt? updatedAt? : Option Nat) (now : Nat) : Option Db :=
  if db.decks.any (fun d => d.id = deckId) then
    some { db with
      cards := db.cards ++
        [⟨db.nextCardId, some deckId, front, back,
          some (createdAt?.getD now), some (updatedAt?.getD now)⟩]
      nextCardId := db.nextCardId + 1 }
  else none

/-- DELETE FROM decks WHERE id = i.  `ON DELETE CASCADE` on `cards.deck_id`
removes exactly the cards whose deck_id references the deleted deck. -/
def deleteDeck (db : Db) (i : Nat) : Db :=
  { db with
    decks := db.decks.filter (fun d => d.id ≠ i)
    cards := db.cards.filter (fun c => c.deckId ≠ some i) }

/-- Database states reachable from the empty database through the schema's
operations. -/
inductive Reachable : Db → Prop
  | empty : Reachable Db.empty
  | insertDeck {db} (userId title : String) (description : Option String)
      (createdAt? updatedAt? : Option Nat) (now : Nat) :
      Reachable db →
      Reachable (insertDeck db userId title description createdAt? updatedAt? now)
  | insertCard {db db'} (deckId : Nat) (front back : String)
      (createdAt? updatedAt? : Option Nat) (now : Nat) :
      Reachable db →
      insertCard db deckId front back createdAt? updatedAt? now = some db' →
      Reachable db'
  | deleteDeck {db} (i : Nat) :
      Reachable db → Reachable (deleteDeck db i)

/-- A card row satisfies the foreign key: its deck_id is non-null and names
an existing deck. -/
def cardOwned (db : Db) (c : CardRow) : Prop :=
  ∃ i, c.deckId = some i ∧ ∃ d ∈ db.decks, d.id = i

/-! ## Database module (from src/src/db/index.ts)

The module reads `process.env.DATABASE_URL`; in the runtime an unset
variable is `undefined` and the guard `!process.env.DATABASE_URL` also
fires on the empty string (both are falsy).  A set variable is `some s`,
an unset one `none`. -/

/-- The constructed connection pool and drizzle instance, holding the
connection string they were built from. -/
structure DbModule where
  connectionString : String
  deriving Repr, DecidableEq

/-- Truthiness of `process.env.DATABASE_URL` as tested by the module's guard:
`undefined` and the empty string are falsy. -/
def envTruthy : Option String → Bool
  | none => false
  | some s => !(s = "")

/-- Loading `src/db/index.ts`: throw when the guard fires, otherwise build
the pool and the drizzle instance from the connection string. -/
def loadDbModule (env : Option String) : Except String DbModule :=
  if envTruthy env then
    .ok ⟨env.getD ""⟩
  else
    .error "DATABASE_URL environment variable is not set"

/-! ## Scheduling engine

Modelled from the spec: the repository contains no scheduler (it is only the
roadmap bullet "Add spaced repetition algorithm"), so the engine, planner and
recorder below follow §3–§4 and §8 of the specification.  Times are rationals
measured in days; the spec's placeholder constants (learning steps 2, lapse
penalty 1/2, difficulty bounds [1,10]) are used as written. -/

/-- Modelled from the spec: the four ordinal recall grades of §3. -/
inductive Grade | again | hard | good | easy
  deriving Repr, DecidableEq

/-- Modelled from the spec: the four lifecycle states of a review record. -/
inductive CardState | new | learning | review | relearning
  deriving Repr, DecidableEq

/-- Modelled from the spec: the scheduling memory for one (card, user) pair,
with the attribute list of §3. -/
structure ReviewState where
  stability : ℚ
  difficulty : ℚ
  repetitions : Nat
  lapses : Nat
  dueAt : ℚ
  lastReviewedAt : Option ℚ
  state : CardState
  deriving Repr, DecidableEq

/-- Modelled from the spec: the §3 invariants the engine may assume —
`stability > 0` and `difficulty` within its `[1, 10]` bounds. -/
def ValidState (s : ReviewState) : Prop :=
  0 < s.stability ∧ 1 ≤ s.difficulty ∧ s.difficulty ≤ 10

instance (s : ReviewState) : Decidable (ValidState s) := by
  unfold ValidState; infer_instance

/-- Floor of the difficulty range. -/
def diffFloor : ℚ := 1

/-- Ceiling of the difficulty range. -/
def diffCeil : ℚ := 10

/-- Difficulty clamped into its bounded range. -/
def clampDiff (d : ℚ) : ℚ := max diffFloor (min diffCeil d)

/-- Modelled from the spec: the per-grade base multiplier; higher grade gives
a larger multiplier, and even `Hard` exceeds 1. -/
def gradeBase : Grade → ℚ
  | .again => 1
  | .hard => 6 / 5
  | .good => 5 / 2
  | .easy => 7 / 2

/-- Modelled from the spec: the stability growth factor
`factor(grade, difficulty, elapsedDays)` of §4.1 — monotone in the grade,
mildly eased by low difficulty, increased by elapsed time, and strictly
greater than 1 for every non-`Again` grade and non-negative elapsed time. -/
def factor (g : Grade) (d e : ℚ) : ℚ :=
  gradeBase g * (1 + (diffCeil - clampDiff d) / 100) * (1 + e / 30)

/-- Learning-steps threshold of §4.1 (placeholder value 2). -/
def learningSteps : Nat := 2

/-- Minimum stability a lapse can floor at. -/
def minStability : ℚ := 1 / 10

/-- Lapse penalty factor of §4.1 (placeholder value 1/2). -/
def lapsePenalty : ℚ := 1 / 2

/-- Same-day relearning delay of §4.1: ten minutes, in days. -/
def relearnDelay : ℚ := 10 / 1440

/-- Modelled from the spec: difficulty nudge of §4.1 — `Again`/`Hard`
increase it, `Easy` decreases it, `Good` leaves it unchanged; always
clamped into the bounds. -/
def nudgeDiff (g : Grade) (d : ℚ) : ℚ :=
  match g with
  | .again => clampDiff (d + 1)
  | .hard => clampDiff (d + 1 / 2)
  | .good => clampDiff d
  | .easy => clampDiff (d - 1)

/-- Days elapsed since the last review, or the fixed seed interval 1 when the
card was never reviewed; never negative. -/
def elapsedDays (s : ReviewState) (now : ℚ) : ℚ :=
  match s.lastReviewedAt with
  | none => 1
  | some t => max 0 (now - t)

/-- Successor state on a non-`Again` grade, per the §4.1 state machine. -/
def advanceState (st : CardState) (reps : Nat) : CardState :=
  match st with
  | .new => .learning
  | .learning => if learningSteps ≤ reps + 1 then .review else .learning
  | .relearning => .review
  | .review => .review

/-- Modelled from the spec: the pure scheduling engine of §4.1, mapping
`(ReviewState, Grade, now)` to the next review state.  `Again` applies the
lapse rule (lapses + 1, repetitions reset, stability halved above the floor,
same-day retry) and moves every state except `New` to `Relearning`; other
grades grow stability by `factor` and advance the state machine, with the
next due date at least one day out. -/
def schedule (s : ReviewState) (g : Grade) (now : ℚ) : ReviewState :=
  match g with
  | .again =>
    { stability := max minStability (s.stability * lapsePenalty)
      difficulty := nudgeDiff .again s.difficulty
      repetitions := 0
      lapses := s.lapses + 1
      dueAt := now + relearnDelay
      lastReviewedAt := some now
      state := if s.state = .new then .learning else .relearning }
  | g =>
    let st' := s.stability * factor g s.difficulty (elapsedDays s now)
    { stability := st'
      difficulty := nudgeDiff g s.difficulty
      repetitions := s.repetitions + 1
      lapses := s.lapses
      dueAt := now + max 1 (round st' : ℚ)
      lastReviewedAt := some now
      state := advanceState s.state s.repetitions }

/-! ## Session planner

Modelled from the spec: §4.2's due-card selection, deterministic ordering and
batch cap.  The planner sees, for one user, each card together with its
optional review state. -/

/-- A card as seen by the session planner: its identifier, the tie-break
fields (owning deck, creation order) and its review state, absent when the
card was never scheduled. -/
structure PlannerCard where
  cardId : Nat
  deckId : Nat
  createdAt : Nat
  rs : Option ReviewState
  deriving Repr, DecidableEq

/-- Modelled from the spec: a card is due iff its `dueAt <= now`, or it has
no review state yet (treated as immediately due). -/
def isDue (now : ℚ) (c : PlannerCard) : Bool :=
  match c.rs with
  | none => true
  | some r => decide (r.dueAt ≤ now)

/-- Priority class of §4.2's ordering: relearning cards first, then new
(or never-scheduled) cards, then the rest (learning and review). -/
def dueRank (c : PlannerCard) : Nat :=
  match c.rs with
  | none => 1
  | some r =>
    match r.state with
    | .relearning => 0
    | .new => 1
    | .learning => 2
    | .review => 2

/-- Primary sort key within a priority class: deck for new cards, due date
(most overdue first) for the rest. -/
def dueKey1 (c : PlannerCard) : ℚ :=
  if dueRank c = 1 then (c.deckId : ℚ)
  else match c.rs with
    | none => 0
    | some r => r.dueAt

/-- Secondary sort key: creation order for new cards, unused for the rest. -/
def dueKey2 (c : PlannerCard) : ℚ :=
  if dueRank c = 1 then (c.createdAt : ℚ) else 0

/-- The deterministic total ordering of §4.2: priority class, then the class
keys, then ascending card identifier as the final tie-break. -/
def cardLE (a b : PlannerCard) : Bool :=
  if dueRank a ≠ dueRank b then decide (dueRank a < dueRank b)
  else if dueKey1 a ≠ dueKey1 b then decide (dueKey1 a < dueKey1 b)
  else if dueKey2 a ≠ dueKey2 b then decide (dueKey2 a < dueKey2 b)
  else decide (a.cardId ≤ b.cardId)

/-- Ordered insertion for the planner's stable sort. -/
def insertOrd (le : α → α → Bool) (x : α) : List α → List α
  | [] => [x]
  | y :: ys => if le x y then x :: y :: ys else y :: insertOrd le x ys

/-- Insertion sort used by the planner; deterministic, no randomness. -/
def sortOrd (le : α → α → Bool) : List α → List α
  | [] => []
  | x :: xs => insertOrd le x (sortOrd le xs)

/-- Modelled from the spec: the full deterministic ordering of all due cards
for one user at `now`. -/
def fullDueOrder (cards : List PlannerCard) (now : ℚ) : List PlannerCard :=
  sortOrd cardLE (cards.filter (isDue now))

/-- Modelled from the spec: `ListDueCards` of §6 — the due cards in the full
ordering, truncated to the configured batch limit; an empty sequence (never
an error) when nothing is due. -/
def listDueCards (cards : List PlannerCard) (now : ℚ) (limit : Nat) :
    List PlannerCard :=
  (fullDueOrder cards now).take limit

/-! ## Outcome recorder

Modelled from the spec: §4.3's `SubmitReview` — validate the submitted
grade, load or synthesize the review state, run the engine, and return the
new state; persistence happens only after a successful return. -/

/-- The error taxonomy of §7. -/
inductive SubmitError | invalidGrade | invalidState | cardNotFound | staleState
  deriving Repr, DecidableEq

/-- Modelled from the spec: grade decoding — exactly four recognized raw
values; anything else is rejected, never coerced. -/
def parseGrade : Nat → Option Grade
  | 0 => some .again
  | 1 => some .hard
  | 2 => some .good
  | 3 => some .easy
  | _ => none

/-- Modelled from the spec: the default `New` state synthesized for a card
reviewed for the first time — small positive stability, mid difficulty,
no reviews yet, due immediately. -/
def defaultReviewState (now : ℚ) : ReviewState :=
  ⟨1, 5, 0, 0, now, none, .new⟩

/-- The external review-record store as the recorder sees it: the set of
existing cards and one record per (card, user) pair. -/
structure Store where
  cardIds : List Nat
  states : List (Nat × Nat × ReviewState)
  deriving Repr, DecidableEq

/-- Look up the review state persisted for a (card, user) pair. -/
def lookupState (st : Store) (cardId userId : Nat) : Option ReviewState :=
  (st.states.find? (fun e => e.1 == cardId && e.2.1 == userId)).map (·.2.2)

/-- Modelled from the spec: `SubmitReview` — reject unrecognized grades with
`InvalidGrade`, missing cards with `CardNotFound`, corrupt stored state with
`InvalidState`; otherwise return the engine's output for the caller to
persist. -/
def submitReview (st : Store) (cardId userId rawGrade : Nat) (now : ℚ) :
    Except SubmitError ReviewState :=
  match parseGrade rawGrade with
  | none => .error .invalidGrade
  | some g =>
    if cardId ∈ st.cardIds then
      let rs := (lookupState st cardId userId).getD (defaultReviewState now)
      if ValidState rs then .ok (schedule rs g now)
      else .error .invalidState
    else .error .cardNotFound

/-- Replace (or create) the record of a (card, user) pair. -/
def upsertState (states : List (Nat × Nat × ReviewState))
    (cardId userId : Nat) (rs : ReviewState) :
    List (Nat × Nat × ReviewState) :=
  (cardId, userId, rs) :: states.filter (fun e => !(e.1 == cardId && e.2.1 == userId))

/-- The caller-side flow of §4.3: persist the recorder's output on success,
change nothing on error. -/
def submitAndPersist (st : Store) (cardId userId rawGrade : Nat) (now : ℚ) :
    Store :=
  match submitReview st cardId userId rawGrade now with
  | .error _ => st
  | .ok rs => { st with states := upsertState st.states cardId userId rs }

/-! ## Concrete instances used to exercise the theorems -/

/-- A small database: one deck (id 1) holding one card (id 1), as produced
by an insertDeck followed by an insertCard. -/
def dbDemo : Db :=
  ⟨[⟨1, "user-1", "Indonesian", none, some 5, some 5⟩],
   [⟨1, some 1, "dog", "Anjing", some 6, some 6⟩], 2, 2⟩

/-- A review state in the `Review` stage, due at day 3. -/
def rsDemoDue : ReviewState := ⟨2, 5, 1, 0, 3, some 1, .review⟩

/-- A review state in the `Review` stage, due exactly at day 5. -/
def rsDemoBoundary : ReviewState := ⟨2, 5, 1, 0, 5, some 1, .review⟩

/-- A review state in the `Review` stage, not due until day 10. -/
def rsDemoLate : ReviewState := ⟨2, 5, 1, 0, 10, some 1, .review⟩

/-- A never-scheduled card. -/
def pcDemoNew : PlannerCard := ⟨1, 1, 0, none⟩

/-- A card overdue at now = 5. -/
def pcDemoDue : PlannerCard := ⟨2, 1, 0, some rsDemoDue⟩

/-- A card due exactly at now = 5. -/
def pcDemoBoundary : PlannerCard := ⟨3, 1, 0, some rsDemoBoundary⟩

/-- A card not yet due at now = 5. -/
def pcDemoLate : PlannerCard := ⟨4, 1, 0, some rsDemoLate⟩

/-- The planner's input in the concrete scenarios. -/
def plannerDemo : List PlannerCard :=
  [pcDemoNew, pcDemoDue, pcDemoBoundary, pcDemoLate]

/-- A store with one existing card and no review records. -/
def storeDemo : Store := ⟨[1], []⟩

/-- A valid review state in the `Review` stage used in the engine scenarios. -/
def rsDemoReview : ReviewState := ⟨10, 5, 3, 2, 0, some 0, .review⟩

/-! ## Sorting and schema lemmas -/

theorem mem_insertOrd (le : α → α → Bool) (x a : α) (l : List α) :
    a ∈ insertOrd le x l ↔ a = x ∨ a ∈ l := by
  induction l with
  | nil => simp [insertOrd]
  | cons y ys ih =>
    by_cases h : le x y
    · simp [insertOrd, h]
    · simp [insertOrd, h, ih]
      tauto

theorem mem_sortOrd (le : α → α → Bool) (a : α) (l : List α) :
    a ∈ sortOrd le l ↔ a ∈ l := by
  induction l with
  | nil => simp [sortOrd]
  | cons y ys ih => simp [sortOrd, mem_insertOrd, ih]

theorem reachable_cards_owned {db : Db} (h : Reachable db) :
    ∀ c ∈ db.cards, cardOwned db c := by
  induction h with
  | empty => intro c hc; simp [Db.empty] at hc
  | insertDeck userId title description createdAt? updatedAt? now _ ih =>
    intro c hc
    obtain ⟨i, hdi, d, hd, hid⟩ := ih c hc
    exact ⟨i, hdi, d, List.mem_append_left _ hd, hid⟩
  | insertCard deckId front back createdAt? updatedAt? now _ heq ih =>
    intro c hc
    rw [insertCard] at heq
    split at heq
    · rename_i hany
      cases heq
      simp only [List.mem_append, List.mem_singleton] at hc
      rcases hc with hc | hc
      · obtain ⟨i, hdi, d, hd, hid⟩ := ih c hc
        exact ⟨i, hdi, d, hd, hid⟩
      · subst hc
        simp only [List.any_eq_true, decide_eq_true_eq] at hany
        obtain ⟨d, hd, hid⟩ := hany
        exact ⟨deckId, rfl, d, hd, hid⟩
    · cases heq
  | deleteDeck i _ ih =>
    intro c hc
    simp only [deleteDeck, List.mem_filter, decide_eq_true_eq] at hc
    obtain ⟨hc, hne⟩ := hc
    obtain ⟨j, hdj, d, hd, hid⟩ := ih c hc
    refine ⟨j, hdj, d, ?_, hid⟩
    simp only [deleteDeck, List.mem_filter, decide_eq_true_eq]
    refine ⟨hd, ?_⟩
    intro hdi
    have hji : j = i := by rw [← hid, hdi]
    exact hne (by rw [hdj, hji])

/-- C1: in every reachable database state, every card is owned by exactly one
deck — its deckId is non-null and references an existing deck — and deleting
a deck deletes exactly the cards whose deckId references that deck, keeping
every other deck and card. -/
theorem deck_ownership_and_cascade (db : Db) (h : Reachable db) :
    (∀ c ∈ db.cards, cardOwned db c) ∧
    ∀ i, (deleteDeck db i).cards = db.cards.filter (fun c => c.deckId ≠ some i) ∧
      (deleteDeck db i).decks = db.decks.filter (fun d => d.id ≠ i) := by
  refine ⟨reachable_cards_owned h, fun i => ⟨rfl, rfl⟩⟩

/-- C1 witness: the reachability hypothesis discharged on the concrete
two-row database. -/
theorem deck_ownership_and_cascade_witness :
    (∀ c ∈ dbDemo.cards, cardOwned dbDemo c) ∧
    ∀ i, (deleteDeck dbDemo i).cards =
        dbDemo.cards.filter (fun c => c.deckId ≠ some i) ∧
      (deleteDeck dbDemo i).decks = dbDemo.decks.filter (fun d => d.id ≠ i) :=
  deck_ownership_and_cascade dbDemo
    (Reachable.insertCard 1 "dog" "Anjing" none none 6
      (Reachable.insertDeck "user-1" "Indonesian" none none none 5
        Reachable.empty)
      (by rfl))

theorem reachable_timestamps {db : Db} (h : Reachable db) :
    (∀ d ∈ db.decks, d.createdAt.isSome ∧ d.updatedAt.isSome) ∧
    (∀ c ∈ db.cards, c.createdAt.isSome ∧ c.updatedAt.isSome) := by
  induction h with
  | empty => simp [Db.empty]
  | insertDeck userId title description createdAt? updatedAt? now _ ih =>
    obtain ⟨ihd, ihc⟩ := ih
    refine ⟨?_, ihc⟩
    intro d hd
    simp only [FlashCard.insertDeck, List.mem_append, List.mem_singleton] at hd
    rcases hd with hd | hd
    · exact ihd d hd
    · subst hd; simp
  | insertCard deckId front back createdAt? updatedAt? now _ heq ih =>
    obtain ⟨ihd, ihc⟩ := ih
    rw [insertCard] at heq
    split at heq
    · cases heq
      refine ⟨ihd, ?_⟩
      intro c hc
      simp only [List.mem_append, List.mem_singleton] at hc
      rcases hc with hc | hc
      · exact ihc c hc
      · subst hc; simp
    · cases heq
  | deleteDeck i _ ih =>
    obtain ⟨ihd, ihc⟩ := ih
    constructor
    · intro d hd
      exact ihd d (List.mem_of_mem_filter hd)
    · intro c hc
      exact ihc c (List.mem_of_mem_filter hc)

/-- C9: in every reachable database state every deck row and card row has
non-null createdAt and updatedAt, and inserts that omit the timestamps
default them to the insertion time. -/
theorem timestamps_nonnull_defaulted (db : Db) (h : Reachable db)
    (u t f b : String) (desc : Option String) (now : Nat) :
    (∀ d ∈ db.decks, d.createdAt.isSome ∧ d.updatedAt.isSome) ∧
    (∀ c ∈ db.cards, c.createdAt.isSome ∧ c.updatedAt.isSome) ∧
    (∃ d ∈ (insertDeck db u t desc none none now).decks,
      d.id = db.nextDeckId ∧ d.createdAt = some now ∧ d.updatedAt = some now) ∧
    (∀ i db', insertCard db i f b none none now = some db' →
      ∃ c ∈ db'.cards,
        c.id = db.nextCardId ∧ c.createdAt = some now ∧ c.updatedAt = some now) := by
  obtain ⟨hd, hc⟩ := reachable_timestamps h
  refine ⟨hd, hc, ?_, ?_⟩
  · exact ⟨⟨db.nextDeckId, u, t, desc, some now, some now⟩,
      List.mem_append_right _ (List.mem_singleton.mpr rfl), rfl, rfl, rfl⟩
  · intro i db' heq
    rw [insertCard] at heq
    split at heq
    · cases heq
      exact ⟨⟨db.nextCardId, some i, f, b, some now, some now⟩,
        List.mem_append_right _ (List.mem_singleton.mpr rfl), rfl, rfl, rfl⟩
    · cases heq

/-- C9 witness: the theorem applied to the concrete reachable database. -/
theorem timestamps_nonnull_defaulted_witness :
    (∀ d ∈ dbDemo.decks, d.createdAt.isSome ∧ d.updatedAt.isSome) ∧
    (∀ c ∈ dbDemo.cards, c.createdAt.isSome ∧ c.updatedAt.isSome) ∧
    (∃ d ∈ (insertDeck dbDemo "user-2" "Hist" none none none 9).decks,
      d.id = dbDemo.nextDeckId ∧ d.createdAt = some 9 ∧ d.updatedAt = some 9) ∧
    (∀ i db', insertCard dbDemo i "q" "a" none none 9 = some db' →
      ∃ c ∈ db'.cards,
        c.id = dbDemo.nextCardId ∧ c.createdAt = some 9 ∧ c.updatedAt = some 9) :=
  timestamps_nonnull_defaulted dbDemo
    (Reachable.insertCard 1 "dog" "Anjing" none none 6
      (Reachable.insertDeck "user-1" "Indonesian" none none none 5
        Reachable.empty)
      (by rfl))
    "user-2" "Hist" "q" "a" none 9

/-- C10: a deck's userId is an unconstrained non-null text column with no
foreign key — inserting a deck succeeds for every string userId, stores the
string verbatim, touches no card row, and preserves reachability. -/
theorem deck_userId_unconstrained (db : Db) (h : Reachable db)
    (u t : String) (desc : Option String) (c? u? : Option Nat) (now : Nat) :
    (∃ d ∈ (insertDeck db u t desc c? u? now).decks,
      d.userId = u ∧ d.id = db.nextDeckId) ∧
    (insertDeck db u t desc c? u? now).cards = db.cards ∧
    Reachable (insertDeck db u t desc c? u? now) := by
  refine ⟨⟨⟨db.nextDeckId, u, t, desc, some (c?.getD now), some (u?.getD now)⟩,
    List.mem_append_right _ (List.mem_singleton.mpr rfl), rfl, rfl⟩, rfl, ?_⟩
  exact Reachable.insertDeck u t desc c? u? now h

/-- C10 witness: the theorem applied at an arbitrary concrete userId string
on the concrete reachable database. -/
theorem deck_userId_unconstrained_witness :
    (∃ d ∈ (insertDeck dbDemo "no-such-user" "T" none none none 7).decks,
      d.userId = "no-such-user" ∧ d.id = dbDemo.nextDeckId) ∧
    (insertDeck dbDemo "no-such-user" "T" none none none 7).cards =
      dbDemo.cards ∧
    Reachable (insertDeck dbDemo "no-such-user" "T" none none none 7) :=
  deck_userId_unconstrained dbDemo
    (Reachable.insertCard 1 "dog" "Anjing" none none 6
      (Reachable.insertDeck "user-1" "Indonesian" none none none 5
        Reachable.empty)
      (by rfl))
    "no-such-user" "T" none none none 7

/-- C8 counterexample: with DATABASE_URL set to the empty string the module
still throws, so "throws iff the variable is not set" fails as stated. -/
theorem loadDbModule_claim_counterexample :
    loadDbModule (some "") =
      .error "DATABASE_URL environment variable is not set" ∧
    some "" ≠ (none : Option String) :=
  ⟨rfl, by simp⟩

/-- C8 amended: loading the database module throws exactly when the guard's
falsiness test fires — DATABASE_URL unset or set to the empty string — and
otherwise constructs the pool and db instance from the connection string. -/
theorem loadDbModule_error_iff (env : Option String) :
    ((∃ e, loadDbModule env = .error e) ↔ env = none ∨ env = some "") ∧
    (∀ s, env = some s → s ≠ "" → loadDbModule env = .ok ⟨s⟩) := by
  constructor
  · cases env with
    | none => simp [loadDbModule, envTruthy]
    | some s =>
      by_cases hs : s = ""
      · subst hs; simp [loadDbModule, envTruthy]
      · simp [loadDbModule, envTruthy, hs]
  · intro s hs hne
    subst hs
    simp [loadDbModule, envTruthy, hne, Option.getD]

/-- C8 witness: a non-empty connection string loads successfully. -/
theorem loadDbModule_error_iff_witness :
    loadDbModule (some "postgresql://u:p@host/db") =
      .ok ⟨"postgresql://u:p@host/db"⟩ :=
  (loadDbModule_error_iff (some "postgresql://u:p@host/db")).2
    "postgresql://u:p@host/db" rfl (by simp)

/-! ## Engine lemmas and claims -/

theorem clampDiff_le (d : ℚ) : clampDiff d ≤ 10 := by
  unfold clampDiff diffFloor diffCeil
  exact max_le (by norm_num) (min_le_left _ _)

theorem one_le_clampDiff (d : ℚ) : 1 ≤ clampDiff d := le_max_left _ _

theorem elapsedDays_nonneg (s : ReviewState) (now : ℚ) :
    0 ≤ elapsedDays s now := by
  unfold elapsedDays
  cases s.lastReviewedAt with
  | none => norm_num
  | some t => exact le_max_left _ _

theorem factor_ordering (d e : ℚ) (he : 0 ≤ e) :
    1 < factor .hard d e ∧ factor .hard d e < factor .good d e ∧
      factor .good d e < factor .easy d e := by
  have hc1 := one_le_clampDiff d
  have hc2 := clampDiff_le d
  have hx : 1 ≤ 1 + (diffCeil - clampDiff d) / 100 := by
    unfold diffCeil at hc2 ⊢
    nlinarith
  have hy : 1 ≤ 1 + e / 30 := by nlinarith
  have hx0 : 0 < 1 + (diffCeil - clampDiff d) / 100 := by linarith
  have hy0 : 0 < 1 + e / 30 := by linarith
  refine ⟨?_, ?_, ?_⟩
  · show 1 < 6 / 5 * (1 + (diffCeil - clampDiff d) / 100) * (1 + e / 30)
    nlinarith [mul_le_mul hx hy (by linarith) (by linarith)]
  · show 6 / 5 * (1 + (diffCeil - clampDiff d) / 100) * (1 + e / 30) <
      5 / 2 * (1 + (diffCeil - clampDiff d) / 100) * (1 + e / 30)
    nlinarith [mul_pos hx0 hy0]
  · show 5 / 2 * (1 + (diffCeil - clampDiff d) / 100) * (1 + e / 30) <
      7 / 2 * (1 + (diffCeil - clampDiff d) / 100) * (1 + e / 30)
    nlinarith [mul_pos hx0 hy0]

/-- C2: for every valid review state, grading `Again` moves to `Relearning`
(unless the state is `New`), increments lapses by exactly one, and resets
repetitions to zero. -/
theorem schedule_again_lapse (s : ReviewState) (now : ℚ) (_hv : ValidState s) :
    (s.state ≠ .new → (schedule s .again now).state = .relearning) ∧
    (schedule s .again now).lapses = s.lapses + 1 ∧
    (schedule s .again now).repetitions = 0 := by
  refine ⟨?_, rfl, rfl⟩
  intro h
  simp [schedule, h]

/-- C2 witness: the lapse rule evaluated on a concrete valid `Review`
state. -/
theorem schedule_again_lapse_witness :
    (rsDemoReview.state ≠ .new →
      (schedule rsDemoReview .again 0).state = .relearning) ∧
    (schedule rsDemoReview .again 0).lapses = rsDemoReview.lapses + 1 ∧
    (schedule rsDemoReview .again 0).repetitions = 0 :=
  schedule_again_lapse rsDemoReview 0 (by norm_num [ValidState, rsDemoReview])

/-- C3: for every valid review state, grading `Easy` strictly increases
stability, and the growth factor is strictly ordered
`Easy > Good > Hard > 1` at every difficulty and non-negative elapsed
time. -/
theorem schedule_easy_stability (s : ReviewState) (now : ℚ)
    (hv : ValidState s) :
    s.stability < (schedule s .easy now).stability ∧
    ∀ d e : ℚ, 0 ≤ e →
      1 < factor .hard d e ∧ factor .hard d e < factor .good d e ∧
        factor .good d e < factor .easy d e := by
  refine ⟨?_, fun d e he => factor_ordering d e he⟩
  have hs : 0 < s.stability := hv.1
  have hf := (factor_ordering s.difficulty (elapsedDays s now)
    (elapsedDays_nonneg s now))
  have h1 : 1 < factor .easy s.difficulty (elapsedDays s now) := by
    linarith [hf.1, hf.2.1, hf.2.2]
  show s.stability < s.stability * factor .easy s.difficulty (elapsedDays s now)
  nlinarith

/-- C3 witness: evaluated on a concrete valid state and concrete
difficulty/elapsed values. -/
theorem schedule_easy_stability_witness :
    rsDemoReview.stability < (schedule rsDemoReview .easy 4).stability ∧
    (1 < factor .hard 5 2 ∧ factor .hard 5 2 < factor .good 5 2 ∧
      factor .good 5 2 < factor .easy 5 2) :=
  ⟨(schedule_easy_stability rsDemoReview 4
      (by norm_num [ValidState, rsDemoReview])).1,
   (schedule_easy_stability rsDemoReview 4
      (by norm_num [ValidState, rsDemoReview])).2 5 2 (by norm_num)⟩

/-- C4: the scheduling engine is a pure deterministic function of
`(ReviewState, Grade, now)` — equal input tuples give identical outputs,
with no hidden state consulted. -/
theorem schedule_deterministic (s₁ s₂ : ReviewState) (g₁ g₂ : Grade)
    (n₁ n₂ : ℚ) (hs : s₁ = s₂) (hg : g₁ = g₂) (hn : n₁ = n₂) :
    schedule s₁ g₁ n₁ = schedule s₂ g₂ n₂ := by
  subst hs; subst hg; subst hn; rfl

/-- C4 witness: two applications at the same concrete tuple agree. -/
theorem schedule_deterministic_witness :
    schedule rsDemoReview .good 4 = schedule rsDemoReview .good 4 :=
  schedule_deterministic rsDemoReview rsDemoReview .good .good 4 4 rfl rfl rfl

/-! ## Planner and recorder claims -/

/-- C5: `ListDueCards` returns only due cards — no returned card has
`dueAt > now`; a card whose `dueAt` equals `now` is due, and a card with no
review state is treated as immediately due. -/
theorem listDueCards_only_due (cards : List PlannerCard) (now : ℚ)
    (limit : Nat) :
    (∀ c ∈ listDueCards cards now limit, ∀ r, c.rs = some r → r.dueAt ≤ now) ∧
    (∀ c : PlannerCard, c.rs = none → isDue now c = true) ∧
    (∀ (c : PlannerCard) (r : ReviewState),
      c.rs = some r → r.dueAt = now → isDue now c = true) := by
  refine ⟨?_, ?_, ?_⟩
  · intro c hc r hr
    have hc' : c ∈ fullDueOrder cards now := List.take_subset _ _ hc
    have hc'' : c ∈ cards.filter (isDue now) :=
      (mem_sortOrd cardLE c _).mp hc'
    have hdue : isDue now c = true := (List.mem_filter.mp hc'').2
    rw [isDue, hr] at hdue
    exact of_decide_eq_true hdue
  · intro c h
    simp [isDue, h]
  · intro c r hr hd
    simp [isDue, hr, hd]

/-- C5 witness: evaluated at now = 5 on the concrete card list — the
returned overdue card, a never-scheduled card, and the `dueAt = now`
boundary card. -/
theorem listDueCards_only_due_witness :
    rsDemoDue.dueAt ≤ (5 : ℚ) ∧ isDue 5 pcDemoNew = true ∧
      isDue 5 pcDemoBoundary = true :=
  ⟨(listDueCards_only_due plannerDemo 5 10).1 pcDemoDue (by decide)
      rsDemoDue rfl,
   (listDueCards_only_due plannerDemo 5 10).2.1 pcDemoNew rfl,
   (listDueCards_only_due plannerDemo 5 10).2.2 pcDemoBoundary rsDemoBoundary
      rfl rfl⟩

/-- C6: `ListDueCards` returns at most `limit` cards, the result is exactly
the head of the full deterministic ordering of due cards, and an empty
sequence (not an error) when nothing is due. -/
theorem listDueCards_batch_cap (cards : List PlannerCard) (now : ℚ)
    (limit : Nat) :
    (listDueCards cards now limit).length ≤ limit ∧
    listDueCards cards now limit = (fullDueOrder cards now).take limit ∧
    (cards.filter (isDue now) = [] → listDueCards cards now limit = []) := by
  refine ⟨?_, rfl, ?_⟩
  · rw [listDueCards, List.length_take]
    exact min_le_left _ _
  · intro h
    rw [listDueCards, fullDueOrder, h]
    simp [sortOrd]

/-- C6 witness: the cap evaluated with limit 2 on four cards, and the empty
result on an empty table. -/
theorem listDueCards_batch_cap_witness :
    (listDueCards plannerDemo 5 2).length ≤ 2 ∧
      listDueCards [] 5 2 = [] :=
  ⟨(listDueCards_batch_cap plannerDemo 5 2).1,
   (listDueCards_batch_cap [] 5 2).2.2 rfl⟩

/-- C7: a `SubmitReview` whose raw grade is outside the four recognized
values is rejected — the grade decodes to nothing (never coerced), the call
fails with `InvalidGrade`, and the persisted store is unchanged. -/
theorem submitReview_invalid_grade (st : Store) (cardId userId raw : Nat)
    (now : ℚ) (h : 3 < raw) :
    parseGrade raw = none ∧
    submitReview st cardId userId raw now = .error .invalidGrade ∧
    submitAndPersist st cardId userId raw now = st := by
  obtain ⟨n, rfl⟩ : ∃ n, raw = n + 4 := ⟨raw - 4, by omega⟩
  have hp : parseGrade (n + 4) = none := rfl
  refine ⟨hp, ?_, ?_⟩
  · rw [submitReview, hp]
  · rw [submitAndPersist, submitReview, hp]

/-- C7 witness: the out-of-range raw grade 9 against the concrete store. -/
theorem submitReview_invalid_grade_witness :
    parseGrade 9 = none ∧
    submitReview storeDemo 1 1 9 0 = .error .invalidGrade ∧
    submitAndPersist storeDemo 1 1 9 0 = storeDemo :=
  submitReview_invalid_grade storeDemo 1 1 9 0 (by norm_num)

end FlashCard
